/-
  Verification development for the solana-payment-processor repository.

  The file shallowly embeds `src/instruction.rs`: the
  `PaymentProcessorInstruction` enum together with its borsh binary
  serialization (enum tag byte, little-endian fixed-width integers,
  u32-length-prefixed strings, `BTreeMap` as a length-prefixed list of
  key/value pairs in ascending key order), and the seven instruction-builder
  functions with their `AccountMeta` lists.

  Rust `String` values are modelled as their UTF-8 byte sequences
  (`Bytes := List Nat`); the `Ord` instance of Rust `String` is byte-wise
  lexicographic, which coincides with the lexicographic order on `List Nat`
  provided by Mathlib, so `BTreeMap<String, u64>` is modelled as an
  association list with strictly ascending keys.

  The processor / state / utils modules of the repository are not part of
  the submitted sources; the definitions that model them are explicitly
  marked `Modelled from the spec:` and follow the specification document
  (amended only where the in-repo test `test_chain_checkout` forces a
  different comparison).
-/
import Mathlib

/-- Byte sequences; each entry is intended to be `< 256`. -/
abbrev Bytes := List Nat

/-- Key/value entry of a `BTreeMap<String, u64>`. -/
abbrev KV := Bytes × Nat

/-- Little-endian encoding of `n` into `w` bytes (the value is taken mod `256 ^ w`). -/
def natLE : Nat → Nat → Bytes
  | 0, _ => []
  | w + 1, n => n % 256 :: natLE w (n / 256)

/-- Value of a little-endian byte sequence. -/
def leVal : Bytes → Nat
  | [] => 0
  | b :: bs => b + 256 * leVal bs

/-- Borsh encoding of a string: u32 little-endian length prefix, then the bytes. -/
def serStr (s : Bytes) : Bytes := natLE 4 s.length ++ s

/-- Borsh encoding of `Option<String>`: tag byte 0 for `None`, 1 followed by the payload for `Some`. -/
def serOptStr : Option Bytes → Bytes
  | none => [0]
  | some s => 1 :: serStr s

/-- Borsh encoding of `Option<u64>`. -/
def serOptU64 : Option Nat → Bytes
  | none => [0]
  | some n => 1 :: natLE 8 n

/-- Borsh encoding of `i64`: the two's-complement residue, little-endian in 8 bytes. -/
def serI64 (q : Int) : Bytes := natLE 8 (q % (2 ^ 64 : Int)).toNat

/-- Concatenated borsh encodings of the entries of a `BTreeMap<String, u64>`. -/
def serMapEntries (l : List KV) : Bytes :=
  (l.map (fun e => serStr e.1 ++ natLE 8 e.2)).flatten

/-- Borsh encoding of a `BTreeMap<String, u64>`: u32 entry count, then the entries in map (ascending key) order. -/
def serMap (l : List KV) : Bytes := natLE 4 l.length ++ serMapEntries l

/-- Insertion into a key-sorted association list, mirroring `BTreeMap::insert` (overwrites an existing key, keeps keys ascending). -/
def mapInsert (k : Bytes) (v : Nat) : List KV → List KV
  | [] => [(k, v)]
  | e :: rest =>
    if k < e.1 then (k, v) :: e :: rest
    else if k = e.1 then (k, v) :: rest
    else e :: mapInsert k v rest

/-- Build a map by inserting entries left to right, as `BTreeMap` deserialization and test setup code do. -/
def mapFromList (l : List KV) : List KV :=
  l.foldl (fun m e => mapInsert e.1 e.2 m) []

/-- Lookup in an association list (first matching key). -/
def mapLookup (k : Bytes) : List KV → Option Nat
  | [] => none
  | e :: rest => if e.1 = k then some e.2 else mapLookup k rest

/-- The `BTreeMap` representation invariant: keys strictly ascending. -/
def SortedKeys (l : List KV) : Prop :=
  l.Pairwise (fun a b => a.1 < b.1)

/-- The instruction enum of `src/instruction.rs` (`PaymentProcessorInstruction`), with strings as byte sequences and `BTreeMap<String, u64>` as a sorted association list. -/
inductive PaymentProcessorInstruction
  | RegisterMerchant (seed : Option Bytes) (fee : Option Nat) (data : Option Bytes)
  | ExpressCheckout (amount : Nat) (order_id : Bytes) (secret : Bytes) (data : Option Bytes)
  | ChainCheckout (amount : Nat) (order_items : List KV) (data : Option Bytes)
  | Withdraw
  | Subscribe (name : Bytes) (data : Option Bytes)
  | RenewSubscription (quantity : Int)
  | CancelSubscription
deriving DecidableEq

/-- Borsh serialization of `PaymentProcessorInstruction` as produced by the derived `BorshSerialize` (`try_to_vec`): one enum tag byte in declaration order, then the fields in order. -/
def serialize : PaymentProcessorInstruction → Bytes
  | .RegisterMerchant seed fee data =>
      0 :: (serOptStr seed ++ serOptU64 fee ++ serOptStr data)
  | .ExpressCheckout amount order_id secret data =>
      1 :: (natLE 8 amount ++ serStr order_id ++ serStr secret ++ serOptStr data)
  | .ChainCheckout amount order_items data =>
      2 :: (natLE 8 amount ++ serMap order_items ++ serOptStr data)
  | .Withdraw => [3]
  | .Subscribe name data =>
      4 :: (serStr name ++ serOptStr data)
  | .RenewSubscription quantity =>
      5 :: serI64 quantity
  | .CancelSubscription => [6]

/-- Take exactly `n` bytes from the input, failing when fewer are available. -/
def dBytes (n : Nat) (input : Bytes) : Option (Bytes × Bytes) :=
  if n ≤ input.length then some (input.take n, input.drop n) else none

/-- Decode a `w`-byte little-endian unsigned integer. -/
def dNat (w : Nat) (input : Bytes) : Option (Nat × Bytes) :=
  (dBytes w input).map (fun p => (leVal p.1, p.2))

/-- Decode a borsh string: u32 length, then that many bytes. -/
def dStr (input : Bytes) : Option (Bytes × Bytes) :=
  (dNat 4 input).bind (fun p => dBytes p.1 p.2)

/-- Decode a borsh `Option<String>`. -/
def dOptStr : Bytes → Option (Option Bytes × Bytes)
  | 0 :: r => some (none, r)
  | 1 :: r => (dStr r).map (fun p => (some p.1, p.2))
  | _ => none

/-- Decode a borsh `Option<u64>`. -/
def dOptU64 : Bytes → Option (Option Nat × Bytes)
  | 0 :: r => some (none, r)
  | 1 :: r => (dNat 8 r).map (fun p => (some p.1, p.2))
  | _ => none

/-- Interpret a u64 residue as a two's-complement i64 value. -/
def i64OfU64 (v : Nat) : Int :=
  if v < 2 ^ 63 then (v : Int) else (v : Int) - 2 ^ 64

/-- Decode a borsh `i64`. -/
def dI64 (input : Bytes) : Option (Int × Bytes) :=
  (dNat 8 input).map (fun p => (i64OfU64 p.1, p.2))

/-- Decode `n` map entries in sequence. -/
def dEntries : Nat → Bytes → Option (List KV × Bytes)
  | 0, input => some ([], input)
  | n + 1, input =>
    (dStr input).bind (fun pk =>
      (dNat 8 pk.2).bind (fun pv =>
        (dEntries n pv.2).map (fun pr => ((pk.1, pv.1) :: pr.1, pr.2))))

/-- Decode a borsh `BTreeMap<String, u64>`: u32 count, then that many entries, inserted into a fresh map as `BTreeMap::deserialize` does. -/
def dMap (input : Bytes) : Option (List KV × Bytes) :=
  (dNat 4 input).bind (fun pn =>
    (dEntries pn.1 pn.2).map (fun pe => (mapFromList pe.1, pe.2)))

/-- Borsh deserialization of `PaymentProcessorInstruction` (`try_from_slice`): dispatch on the tag byte, decode the fields, and require that the whole input is consumed. -/
def deserialize : Bytes → Option PaymentProcessorInstruction
  | 0 :: r =>
    (dOptStr r).bind (fun p1 =>
      (dOptU64 p1.2).bind (fun p2 =>
        (dOptStr p2.2).bind (fun p3 =>
          if p3.2 = [] then some (.RegisterMerchant p1.1 p2.1 p3.1) else none)))
  | 1 :: r =>
    (dNat 8 r).bind (fun p1 =>
      (dStr p1.2).bind (fun p2 =>
        (dStr p2.2).bind (fun p3 =>
          (dOptStr p3.2).bind (fun p4 =>
            if p4.2 = [] then some (.ExpressCheckout p1.1 p2.1 p3.1 p4.1) else none))))
  | 2 :: r =>
    (dNat 8 r).bind (fun p1 =>
      (dMap p1.2).bind (fun p2 =>
        (dOptStr p2.2).bind (fun p3 =>
          if p3.2 = [] then some (.ChainCheckout p1.1 p2.1 p3.1) else none)))
  | 3 :: r => if r = [] then some .Withdraw else none
  | 4 :: r =>
    (dStr r).bind (fun p1 =>
      (dOptStr p1.2).bind (fun p2 =>
        if p2.2 = [] then some (.Subscribe p1.1 p2.1) else none))
  | 5 :: r =>
    (dI64 r).bind (fun p1 =>
      if p1.2 = [] then some (.RenewSubscription p1.1) else none)
  | 6 :: r => if r = [] then some .CancelSubscription else none
  | _ => none

/-- Solana account metadata as used by the instruction builders: pubkey (abstracted to `Nat`), signer flag, writable flag. -/
structure AccountMeta where
  pubkey : Nat
  is_signer : Bool
  is_writable : Bool
deriving DecidableEq

/-- Mirror of `AccountMeta::new`: writable. -/
def AccountMeta.new (pubkey : Nat) (signer : Bool) : AccountMeta :=
  ⟨pubkey, signer, true⟩

/-- Mirror of `AccountMeta::new_readonly`: not writable. -/
def AccountMeta.new_readonly (pubkey : Nat) (signer : Bool) : AccountMeta :=
  ⟨pubkey, signer, false⟩

/-- The system program address (`solana_program::system_program::id()`), abstracted. -/
def system_program_id : Nat := 901

/-- The rent sysvar address (`sysvar::rent::id()`), abstracted. -/
def rent_sysvar_id : Nat := 902

/-- The SPL token program address (`spl_token::id()`), abstracted. -/
def spl_token_id : Nat := 903

/-- An assembled instruction: program id, ordered account metas, serialized data. -/
structure Instruction where
  program_id : Nat
  accounts : List AccountMeta
  data : Bytes
deriving DecidableEq

/-- Mirror of `register_merchant` in `src/instruction.rs`. -/
def register_merchant (program_id signer merchant : Nat) (seed : Option Bytes)
    (fee : Option Nat) (data : Option Bytes) (sponsor : Option Nat) : Instruction :=
  { program_id := program_id
    accounts :=
      [AccountMeta.new signer true,
       AccountMeta.new merchant false,
       AccountMeta.new_readonly system_program_id false,
       AccountMeta.new_readonly rent_sysvar_id false] ++
      (match sponsor with
       | none => []
       | some sp => [AccountMeta.new_readonly sp false])
    data := serialize (.RegisterMerchant seed fee data) }

/-- Mirror of `express_checkout` in `src/instruction.rs`. -/
def express_checkout (program_id signer order merchant seller_token buyer_token mint
    program_owner sponsor pda : Nat) (amount : Nat) (order_id secret : Bytes)
    (data : Option Bytes) : Instruction :=
  { program_id := program_id
    accounts :=
      [AccountMeta.new signer true,
       AccountMeta.new order true,
       AccountMeta.new_readonly merchant false,
       AccountMeta.new seller_token false,
       AccountMeta.new buyer_token false,
       AccountMeta.new program_owner false,
       AccountMeta.new sponsor false,
       AccountMeta.new_readonly mint false,
       AccountMeta.new_readonly pda false,
       AccountMeta.new_readonly spl_token_id false,
       AccountMeta.new_readonly system_program_id false,
       AccountMeta.new_readonly rent_sysvar_id false]
    data := serialize (.ExpressCheckout amount order_id secret data) }

/-- Mirror of `chain_checkout` in `src/instruction.rs`. -/
def chain_checkout (program_id signer order merchant seller_token buyer_token mint
    program_owner sponsor pda : Nat) (amount : Nat) (order_items : List KV)
    (data : Option Bytes) : Instruction :=
  { program_id := program_id
    accounts :=
      [AccountMeta.new signer true,
       AccountMeta.new order true,
       AccountMeta.new_readonly merchant false,
       AccountMeta.new seller_token false,
       AccountMeta.new buyer_token false,
       AccountMeta.new program_owner false,
       AccountMeta.new sponsor false,
       AccountMeta.new_readonly mint false,
       AccountMeta.new_readonly pda false,
       AccountMeta.new_readonly spl_token_id false,
       AccountMeta.new_readonly system_program_id false,
       AccountMeta.new_readonly rent_sysvar_id false]
    data := serialize (.ChainCheckout amount order_items data) }

/-- Mirror of `withdraw` in `src/instruction.rs`. -/
def withdraw (program_id signer order merchant order_payment_token merchant_token
    pda : Nat) (subscription : Option Nat) : Instruction :=
  { program_id := program_id
    accounts :=
      [AccountMeta.new signer true,
       AccountMeta.new order false,
       AccountMeta.new_readonly merchant false,
       AccountMeta.new order_payment_token false,
       AccountMeta.new merchant_token false,
       AccountMeta.new_readonly pda false,
       AccountMeta.new_readonly spl_token_id false] ++
      (match subscription with
       | none => []
       | some s => [AccountMeta.new_readonly s false])
    data := serialize .Withdraw }

/-- Mirror of `subscribe` in `src/instruction.rs`. -/
def subscribe (program_id signer subscription merchant order : Nat) (name : Bytes)
    (data : Option Bytes) : Instruction :=
  { program_id := program_id
    accounts :=
      [AccountMeta.new signer true,
       AccountMeta.new subscription false,
       AccountMeta.new_readonly merchant false,
       AccountMeta.new_readonly order false,
       AccountMeta.new_readonly system_program_id false,
       AccountMeta.new_readonly rent_sysvar_id false]
    data := serialize (.Subscribe name data) }

/-- Mirror of `renew_subscription` in `src/instruction.rs`. -/
def renew_subscription (program_id signer subscription merchant order : Nat)
    (quantity : Int) : Instruction :=
  { program_id := program_id
    accounts :=
      [AccountMeta.new signer true,
       AccountMeta.new subscription false,
       AccountMeta.new_readonly merchant false,
       AccountMeta.new_readonly order false]
    data := serialize (.RenewSubscription quantity) }

/-- Mirror of `cancel_subscription` in `src/instruction.rs`. -/
def cancel_subscription (program_id signer subscription merchant order order_token
    refund_token pda : Nat) : Instruction :=
  { program_id := program_id
    accounts :=
      [AccountMeta.new signer true,
       AccountMeta.new subscription false,
       AccountMeta.new_readonly merchant false,
       AccountMeta.new order false,
       AccountMeta.new order_token false,
       AccountMeta.new refund_token false,
       AccountMeta.new_readonly pda false,
       AccountMeta.new_readonly spl_token_id false]
    data := serialize .CancelSubscription }

/-- Error kinds of the processor, from spec section 7. -/
inductive PPError
  | MalformedInstruction
  | CorruptAccountData
  | AlreadyInitialized
  | NotInitialized
  | InvalidAccountOwner
  | AddressMismatch
  | ArithmeticOverflow
  | InsufficientPayment
  | InvalidOrderItems
  | PackageNotFound
  | NoPackagesDefined
  | InvalidOrderStatus
  | InvalidSubscriptionLink
deriving DecidableEq

/-- Checked u64 addition: fails with `ArithmeticOverflow` instead of wrapping. -/
def checked_add (a b : Nat) : Except PPError Nat :=
  if a + b < 2 ^ 64 then .ok (a + b) else .error .ArithmeticOverflow

/-- Checked u64 multiplication: fails with `ArithmeticOverflow` instead of wrapping. -/
def checked_mul (a b : Nat) : Except PPError Nat :=
  if a * b < 2 ^ 64 then .ok (a * b) else .error .ArithmeticOverflow

/-- Modelled from the spec: the Chain Checkout total accumulation (the processor module is not among the submitted sources).  For each item id in `order_items`, its price is looked up in the merchant catalog (`InvalidOrderItems` when absent) and `price * quantity` is accumulated with checked arithmetic. -/
def chain_total (catalog : List KV) : List KV → Nat → Except PPError Nat
  | [], acc => .ok acc
  | e :: rest, acc =>
    match mapLookup e.1 catalog with
    | none => .error .InvalidOrderItems
    | some price =>
      (checked_mul price e.2).bind (fun prod =>
        (checked_add acc prod).bind (fun acc2 => chain_total catalog rest acc2))

/-- Modelled from the spec: the Chain Checkout amount validation (the processor module is not among the submitted sources).  The spec says `amount == expected_total` is required, but the in-repo test `test_chain_checkout` passes `amount = 2000000000` against a resolved total of `6000000` and asserts success, so the comparison the code performs is `amount < expected_total -> InsufficientPayment` (overpayment accepted). -/
def chain_checkout_check (catalog : List KV) (amount : Nat) (order_items : List KV) :
    Except PPError Unit :=
  match chain_total catalog order_items 0 with
  | .error err => .error err
  | .ok total => if amount < total then .error .InsufficientPayment else .ok ()

/-- The sum the spec describes: catalog price of each item times its quantity, over all entries. -/
def specTotal (catalog : List KV) (order_items : List KV) : Nat :=
  (order_items.map (fun e => (mapLookup e.1 catalog).getD 0 * e.2)).sum

/-- Modelled from the spec: `split(total_fee, sponsor_share_bp)` of the Fee Calculator (the utils module is not among the submitted sources); the sponsor share is an integer proportion in basis points and the division remainder is assigned to the owner share. -/
def get_amounts (total_fee sponsor_share_bp : Nat) : Nat × Nat :=
  (total_fee - total_fee * sponsor_share_bp / 10000, total_fee * sponsor_share_bp / 10000)

/-- Modelled from the spec: `enforce_minimum(requested_fee) -> max(requested_fee, MIN_FEE)` (the utils module is not among the submitted sources). -/
def enforce_minimum (min_fee requested : Nat) : Nat := max requested min_fee

/-- Modelled from the spec: the fee stored at merchant registration, `enforce_minimum(requested_fee.unwrap_or(DEFAULT_FEE))` (the processor module is not among the submitted sources).  `MIN_FEE` and `DEFAULT_FEE` are abstract constants passed as arguments. -/
def registered_fee (min_fee default_fee : Nat) (requested : Option Nat) : Nat :=
  enforce_minimum min_fee (requested.getD default_fee)

/-- Order status enum of the state module (`OrderStatus`), as described by the spec data model. -/
inductive OrderStatus
  | Initialized
  | Paid
  | Withdrawn
  | Cancelled
deriving DecidableEq

/-- Subscription status enum of the state module (`SubscriptionStatus`). -/
inductive SubscriptionStatus
  | Initialized
  | Cancelled
deriving DecidableEq

/-- Operations that may change an order's status, per the spec state machine. -/
inductive OrderOp
  | checkoutSettle
  | withdrawOp
  | cancelTrial
deriving DecidableEq

/-- Modelled from the spec: the order status transition relation of section 4.5 (the processor module is not among the submitted sources).  `none` means the operation is rejected without mutating the order. -/
def order_step : OrderOp → OrderStatus → Option OrderStatus
  | .checkoutSettle, .Initialized => some .Paid
  | .withdrawOp, .Paid => some .Withdrawn
  | .cancelTrial, .Initialized => some .Cancelled
  | .cancelTrial, .Paid => some .Cancelled
  | _, _ => none

/-- Position of a status along the forward direction of the state machine (`Withdrawn` and `Cancelled` are terminal). -/
def statusRank : OrderStatus → Nat
  | .Initialized => 0
  | .Paid => 1
  | .Withdrawn => 2
  | .Cancelled => 2

/-- Modelled from the spec: Withdraw requires order status `Paid`, transfers the full escrowed balance and sets status `Withdrawn`; any other status fails with `InvalidOrderStatus` and transfers nothing (the processor module is not among the submitted sources). -/
def withdraw_order (status : OrderStatus) (escrow_balance : Nat) :
    Except PPError (OrderStatus × Nat) :=
  match status with
  | .Paid => .ok (.Withdrawn, escrow_balance)
  | _ => .error .InvalidOrderStatus

/-- Observable outcome of `CancelSubscription`: resulting subscription status, resulting order status, amount moved to the refund token account, resulting `period_end`. -/
structure SubCancelOutcome where
  sub_status : SubscriptionStatus
  order_status : OrderStatus
  refund_amount : Nat
  period_end : Int
deriving DecidableEq

/-- Modelled from the spec: `CancelSubscription` of section 4.6 (the processor module is not among the submitted sources).  The subscription is always set to `Cancelled`; when `now() < period_start + trial` the linked order is also cancelled, its full paid amount goes to the refund token account, and `period_end` is rewound to `period_start`; otherwise the order, the escrow and `period_end` are untouched. -/
def cancel_subscription_outcome (now period_start period_end trial : Int)
    (paid_amount : Nat) (order_status : OrderStatus) : SubCancelOutcome :=
  if now < period_start + trial then
    { sub_status := .Cancelled
      order_status := .Cancelled
      refund_amount := paid_amount
      period_end := period_start }
  else
    { sub_status := .Cancelled
      order_status := order_status
      refund_amount := 0
      period_end := period_end }

theorem natLE_length (w n : Nat) : (natLE w n).length = w := by
  induction w generalizing n with
  | zero => rfl
  | succ w ih => simp [natLE, ih]

theorem leVal_natLE (w n : Nat) (h : n < 256 ^ w) : leVal (natLE w n) = n := by
  induction w generalizing n with
  | zero =>
    have h1 : n < 1 := by simpa using h
    simp [natLE, leVal]
    omega
  | succ w ih =>
    have h2 : n / 256 < 256 ^ w := by
      rw [Nat.div_lt_iff_lt_mul (by norm_num : 0 < 256)]
      calc n < 256 ^ (w + 1) := h
        _ = 256 ^ w * 256 := by ring
    simp [natLE, leVal, ih _ h2]
    omega

theorem natLE_eq_map_range (w n : Nat) :
    natLE w n = (List.range w).map (fun i => n / 256 ^ i % 256) := by
  induction w generalizing n with
  | zero => rfl
  | succ w ih =>
    rw [List.range_succ_eq_map, List.map_cons, List.map_map]
    show natLE (w + 1) n = n / 256 ^ 0 % 256 :: _
    rw [show natLE (w + 1) n = n % 256 :: natLE w (n / 256) from rfl, ih (n / 256)]
    congr 1
    · simp
    · apply List.map_congr_left
      intro i _
      show n / 256 / 256 ^ i % 256 = n / 256 ^ (i + 1) % 256
      rw [Nat.div_div_eq_div_mul]
      congr 2
      ring

theorem dBytes_exact (n : Nat) (bs r : Bytes) (h : bs.length = n) :
    dBytes n (bs ++ r) = some (bs, r) := by
  subst h
  simp [dBytes, List.take_left, List.drop_left]

theorem dNat_append (w n : Nat) (r : Bytes) (h : n < 256 ^ w) :
    dNat w (natLE w n ++ r) = some (n, r) := by
  unfold dNat
  rw [dBytes_exact w (natLE w n) r (natLE_length w n)]
  simp [leVal_natLE w n h]

theorem dStr_append (s r : Bytes) (h : s.length < 2 ^ 32) :
    dStr (serStr s ++ r) = some (s, r) := by
  have hsh : serStr s ++ r = natLE 4 s.length ++ (s ++ r) := by
    simp [serStr]
  rw [hsh]
  unfold dStr
  rw [dNat_append 4 s.length (s ++ r) (by omega)]
  simp only [Option.some_bind]
  exact dBytes_exact s.length s r rfl

theorem dOptStr_append (o : Option Bytes) (r : Bytes)
    (h : ∀ s, o = some s → s.length < 2 ^ 32) :
    dOptStr (serOptStr o ++ r) = some (o, r) := by
  cases o with
  | none => rfl
  | some s =>
    show dOptStr (1 :: (serStr s ++ r)) = some (some s, r)
    simp [dOptStr, dStr_append s r (h s rfl)]

theorem dOptU64_append (o : Option Nat) (r : Bytes)
    (h : ∀ n, o = some n → n < 2 ^ 64) :
    dOptU64 (serOptU64 o ++ r) = some (o, r) := by
  cases o with
  | none => rfl
  | some n =>
    show dOptU64 (1 :: (natLE 8 n ++ r)) = some (some n, r)
    simp [dOptU64, dNat_append 8 n r (by have := h n rfl; omega)]

theorem i64_roundtrip (q : Int) (h1 : -(2 ^ 63) ≤ q) (h2 : q < 2 ^ 63) :
    i64OfU64 ((q % (2 ^ 64 : Int)).toNat) = q := by
  unfold i64OfU64
  split <;> (rename_i hc; push_cast; omega)

theorem dI64_append (q : Int) (r : Bytes) (h1 : -(2 ^ 63) ≤ q) (h2 : q < 2 ^ 63) :
    dI64 (serI64 q ++ r) = some (q, r) := by
  unfold dI64 serI64
  rw [dNat_append 8 ((q % (2 ^ 64 : Int)).toNat) r (by omega)]
  show some (i64OfU64 ((q % (2 ^ 64 : Int)).toNat), r) = some (q, r)
  rw [i64_roundtrip q h1 h2]

theorem mapInsert_mem (k : Bytes) (v : Nat) (m : List KV) (b : KV)
    (h : b ∈ mapInsert k v m) : b = (k, v) ∨ b ∈ m := by
  induction m with
  | nil => simpa [mapInsert] using h
  | cons e rest ih =>
    unfold mapInsert at h
    split_ifs at h with h1 h2
    · simpa using h
    · rcases (by simpa using h : b = (k, v) ∨ b ∈ rest) with hb | hb
      · exact Or.inl hb
      · exact Or.inr (List.mem_cons_of_mem e hb)
    · rcases (by simpa using h : b = e ∨ b ∈ mapInsert k v rest) with hb | hb
      · exact Or.inr (by simp [hb])
      · rcases ih hb with hb2 | hb2
        · exact Or.inl hb2
        · exact Or.inr (List.mem_cons_of_mem e hb2)

theorem mapInsert_sorted (k : Bytes) (v : Nat) (m : List KV) (h : SortedKeys m) :
    SortedKeys (mapInsert k v m) := by
  induction m with
  | nil => simp [mapInsert, SortedKeys]
  | cons e rest ih =>
    rcases List.pairwise_cons.mp h with ⟨hhead, htail⟩
    unfold mapInsert
    split_ifs with h1 h2
    · refine List.pairwise_cons.mpr ⟨?_, h⟩
      intro b hb
      rcases List.mem_cons.mp hb with hb2 | hb2
      · rw [hb2]; exact h1
      · exact lt_trans h1 (hhead b hb2)
    · refine List.pairwise_cons.mpr ⟨?_, htail⟩
      intro b hb
      rw [h2]
      exact hhead b hb
    · have hek : e.1 < k :=
        lt_of_le_of_ne (le_of_not_lt h1) (fun he => h2 he.symm)
      refine List.pairwise_cons.mpr ⟨?_, ih htail⟩
      intro b hb
      rcases mapInsert_mem k v rest b hb with hb2 | hb2
      · rw [hb2]; exact hek
      · exact hhead b hb2

theorem mapInsert_last (k : Bytes) (v : Nat) (m : List KV)
    (h : ∀ e ∈ m, e.1 < k) : mapInsert k v m = m ++ [(k, v)] := by
  induction m with
  | nil => rfl
  | cons e rest ih =>
    have he := h e (by simp)
    unfold mapInsert
    rw [if_neg (lt_asymm he), if_neg he.ne']
    simp [ih (fun b hb => h b (List.mem_cons_of_mem e hb))]

theorem foldl_mapInsert_sorted (l : List KV) : ∀ acc : List KV, SortedKeys (acc ++ l) →
    l.foldl (fun m e => mapInsert e.1 e.2 m) acc = acc ++ l := by
  induction l with
  | nil => intro acc _; simp
  | cons e rest ih =>
    intro acc h
    have hlt : ∀ b ∈ acc, b.1 < e.1 := by
      intro b hb
      exact (List.pairwise_append.mp h).2.2 b hb e (by simp)
    rw [List.foldl_cons, mapInsert_last e.1 e.2 acc hlt]
    have hre : acc ++ [(e.1, e.2)] = acc ++ [e] := by simp
    rw [hre, ih (acc ++ [e]) (by simpa [List.append_assoc] using h)]
    simp

theorem mapFromList_sorted_id (l : List KV) (h : SortedKeys l) : mapFromList l = l := by
  have := foldl_mapInsert_sorted l [] (by simpa using h)
  simpa [mapFromList] using this

theorem foldl_mapInsert_sortedKeys (l : List KV) : ∀ acc : List KV, SortedKeys acc →
    SortedKeys (l.foldl (fun m e => mapInsert e.1 e.2 m) acc) := by
  induction l with
  | nil => intro acc h; simpa using h
  | cons e rest ih =>
    intro acc h
    rw [List.foldl_cons]
    exact ih (mapInsert e.1 e.2 acc) (mapInsert_sorted e.1 e.2 acc h)

theorem mapFromList_sorted (l : List KV) : SortedKeys (mapFromList l) :=
  foldl_mapInsert_sortedKeys l [] (by simp [SortedKeys])

theorem mapInsert_lookup (k : Bytes) (v : Nat) (m : List KV) (k2 : Bytes) :
    mapLookup k2 (mapInsert k v m) = if k2 = k then some v else mapLookup k2 m := by
  induction m with
  | nil =>
    by_cases hk : k2 = k
    · subst hk; simp [mapInsert, mapLookup]
    · have hk2 : ¬ k = k2 := fun hc => hk hc.symm
      simp [mapInsert, mapLookup, hk, hk2]
  | cons e rest ih =>
    rcases lt_trichotomy k e.1 with h1 | h1 | h1
    · rw [show mapInsert k v (e :: rest) = (k, v) :: e :: rest from by
        unfold mapInsert; rw [if_pos h1]]
      by_cases hk : k2 = k
      · subst hk; simp [mapLookup]
      · have hk2 : ¬ k = k2 := fun hc => hk hc.symm
        simp [mapLookup, hk, hk2]
    · rw [show mapInsert k v (e :: rest) = (k, v) :: rest from by
        unfold mapInsert
        rw [if_neg (by rw [h1]; exact lt_irrefl _), if_pos h1]]
      by_cases hk : k2 = k
      · subst hk; simp [mapLookup]
      · have hk2 : ¬ k = k2 := fun hc => hk hc.symm
        have he : ¬ e.1 = k2 := by rw [← h1]; exact hk2
        simp [mapLookup, hk, hk2, he]
    · rw [show mapInsert k v (e :: rest) = e :: mapInsert k v rest from by
        unfold mapInsert
        rw [if_neg (lt_asymm h1), if_neg h1.ne']
        cases rest <;> rfl]
      by_cases he : e.1 = k2
      · have hk : ¬ k2 = k := fun hc => absurd h1 (by rw [he, hc]; exact lt_irrefl k)
        simp [mapLookup, he, hk]
      · simp [mapLookup, he, ih]

theorem mapLookup_eq_none (k : Bytes) (m : List KV) (h : ∀ e ∈ m, e.1 ≠ k) :
    mapLookup k m = none := by
  induction m with
  | nil => rfl
  | cons e rest ih =>
    simp [mapLookup, h e (by simp)]
    exact ih (fun b hb => h b (List.mem_cons_of_mem e hb))

theorem mapLookup_mem (k : Bytes) (v : Nat) (m : List KV)
    (h : mapLookup k m = some v) : (k, v) ∈ m := by
  induction m with
  | nil => simp [mapLookup] at h
  | cons e rest ih =>
    unfold mapLookup at h
    split_ifs at h with h1
    · have : e = (k, v) := by
        rcases e with ⟨a, b⟩
        simp at h1 h
        simp [h1, h]
      simp [← this]
    · exact List.mem_cons_of_mem e (ih h)

theorem mem_mapLookup (k : Bytes) (v : Nat) (m : List KV)
    (hnd : (m.map Prod.fst).Nodup) (h : (k, v) ∈ m) : mapLookup k m = some v := by
  induction m with
  | nil => simp at h
  | cons e rest ih =>
    have hnd2 : (e.1 :: rest.map Prod.fst).Nodup := by
      rw [List.map_cons] at hnd
      exact hnd
    have hhead : e.1 ∉ rest.map Prod.fst := (List.nodup_cons.mp hnd2).1
    have htail : (rest.map Prod.fst).Nodup := (List.nodup_cons.mp hnd2).2
    rcases List.mem_cons.mp h with h2 | h2
    · simp [mapLookup, ← h2]
    · have hne : e.1 ≠ k := by
        intro he
        exact hhead (he ▸ List.mem_map.mpr ⟨(k, v), h2, rfl⟩)
      simp [mapLookup, hne]
      exact ih htail h2

theorem mapLookup_perm (m1 m2 : List KV) (hp : m1.Perm m2)
    (hnd : (m1.map Prod.fst).Nodup) (k : Bytes) :
    mapLookup k m1 = mapLookup k m2 := by
  have hnd2 : (m2.map Prod.fst).Nodup := ((hp.map Prod.fst).nodup_iff).mp hnd
  cases hc : mapLookup k m1 with
  | some v =>
    exact (mem_mapLookup k v m2 hnd2 (hp.mem_iff.mp (mapLookup_mem k v m1 hc))).symm
  | none =>
    cases hc2 : mapLookup k m2 with
    | none => rfl
    | some v =>
      have := mem_mapLookup k v m1 hnd (hp.mem_iff.mpr (mapLookup_mem k v m2 hc2))
      rw [this] at hc
      exact absurd hc (by simp)

theorem sorted_ext : ∀ (m1 m2 : List KV), SortedKeys m1 → SortedKeys m2 →
    (∀ k, mapLookup k m1 = mapLookup k m2) → m1 = m2
  | [], [], _, _, _ => rfl
  | [], e :: r, _, _, h => by
    have := h e.1
    simp [mapLookup] at this
  | e :: r, [], _, _, h => by
    have := h e.1
    simp [mapLookup] at this
  | e1 :: r1, e2 :: r2, h1, h2, h => by
    rcases List.pairwise_cons.mp h1 with ⟨hh1, ht1⟩
    rcases List.pairwise_cons.mp h2 with ⟨hh2, ht2⟩
    have hkeys : e1.1 = e2.1 := by
      rcases lt_trichotomy e1.1 e2.1 with hlt | heq | hgt
      · exfalso
        have hl := h e1.1
        rw [show mapLookup e1.1 (e1 :: r1) = some e1.2 from by simp [mapLookup]] at hl
        rw [show mapLookup e1.1 (e2 :: r2) = none from by
          apply mapLookup_eq_none
          intro b hb
          rcases List.mem_cons.mp hb with hb2 | hb2
          · rw [hb2]; exact hlt.ne'
          · exact (lt_trans hlt (hh2 b hb2)).ne'] at hl
        exact absurd hl (by simp)
      · exact heq
      · exfalso
        have hl := h e2.1
        rw [show mapLookup e2.1 (e2 :: r2) = some e2.2 from by simp [mapLookup]] at hl
        rw [show mapLookup e2.1 (e1 :: r1) = none from by
          apply mapLookup_eq_none
          intro b hb
          rcases List.mem_cons.mp hb with hb2 | hb2
          · rw [hb2]; exact hgt.ne'
          · exact (lt_trans hgt (hh1 b hb2)).ne'] at hl
        exact absurd hl.symm (by simp)
    have hvals : e1.2 = e2.2 := by
      have hl := h e1.1
      rw [show mapLookup e1.1 (e1 :: r1) = some e1.2 from by simp [mapLookup]] at hl
      rw [show mapLookup e1.1 (e2 :: r2) = some e2.2 from by
        simp [mapLookup, ← hkeys]] at hl
      simpa using hl
    have htails : r1 = r2 := by
      apply sorted_ext r1 r2 ht1 ht2
      intro k
      by_cases hk : e1.1 = k
      · have hk2 : e2.1 = k := by rw [← hkeys]; exact hk
        rw [mapLookup_eq_none k r1 (fun b hb => ((hk ▸ hh1 b hb : k < b.1)).ne'),
          mapLookup_eq_none k r2 (fun b hb => ((hk2 ▸ hh2 b hb : k < b.1)).ne')]
      · have hk2 : ¬ e2.1 = k := by rw [← hkeys]; exact hk
        have hl := h k
        rw [show mapLookup k (e1 :: r1) = mapLookup k r1 from by simp [mapLookup, hk],
          show mapLookup k (e2 :: r2) = mapLookup k r2 from by
            simp [mapLookup, hk2]] at hl
        exact hl
    rcases e1 with ⟨a1, b1⟩
    rcases e2 with ⟨a2, b2⟩
    simp only at hkeys hvals
    simp [hkeys, hvals, htails]

theorem mapFromList_lookup (l : List KV) (k : Bytes) :
    mapLookup k (mapFromList l) = mapLookup k l.reverse := by
  induction l using List.reverseRecOn with
  | nil => rfl
  | append_singleton l e ih =>
    have hstep : mapFromList (l ++ [e]) = mapInsert e.1 e.2 (mapFromList l) := by
      simp [mapFromList, List.foldl_append]
    rw [hstep, mapInsert_lookup, List.reverse_append]
    show (if k = e.1 then some e.2 else mapLookup k (mapFromList l))
      = mapLookup k (e :: l.reverse)
    by_cases hk : k = e.1
    · have he : e.1 = k := hk.symm
      rw [if_pos hk, show mapLookup k (e :: l.reverse) = some e.2 from by
        simp [mapLookup, he]]
    · have he : ¬ e.1 = k := fun hc => hk hc.symm
      rw [if_neg hk, show mapLookup k (e :: l.reverse) = mapLookup k l.reverse from by
        simp [mapLookup, he], ih]

theorem mapFromList_perm_eq (l1 l2 : List KV) (hp : l1.Perm l2)
    (hnd : (l1.map Prod.fst).Nodup) :
    mapFromList l1 = mapFromList l2 := by
  apply sorted_ext (mapFromList l1) (mapFromList l2) (mapFromList_sorted l1)
    (mapFromList_sorted l2)
  intro k
  rw [mapFromList_lookup, mapFromList_lookup]
  exact mapLookup_perm l1.reverse l2.reverse
    ((l1.reverse_perm.trans hp).trans l2.reverse_perm.symm) (by simpa using hnd) k

theorem dEntries_append (l : List KV) (r : Bytes)
    (h : ∀ e ∈ l, e.1.length < 2 ^ 32 ∧ e.2 < 2 ^ 64) :
    dEntries l.length (serMapEntries l ++ r) = some (l, r) := by
  induction l with
  | nil => rfl
  | cons e rest ih =>
    have he := h e (by simp)
    have hsh : serMapEntries (e :: rest) ++ r
        = serStr e.1 ++ (natLE 8 e.2 ++ (serMapEntries rest ++ r)) := by
      simp [serMapEntries, List.append_assoc]
    rw [List.length_cons]
    show dEntries (rest.length + 1) (serMapEntries (e :: rest) ++ r) = some (e :: rest, r)
    rw [hsh]
    unfold dEntries
    rw [dStr_append e.1 (natLE 8 e.2 ++ (serMapEntries rest ++ r)) he.1]
    simp only [Option.some_bind]
    rw [dNat_append 8 e.2 (serMapEntries rest ++ r) (by have := he.2; omega)]
    simp only [Option.some_bind]
    rw [ih (fun b hb => h b (List.mem_cons_of_mem e hb))]
    simp

theorem dMap_append (l : List KV) (r : Bytes) (hlen : l.length < 2 ^ 32)
    (hs : SortedKeys l) (h : ∀ e ∈ l, e.1.length < 2 ^ 32 ∧ e.2 < 2 ^ 64) :
    dMap (serMap l ++ r) = some (l, r) := by
  have hsh : serMap l ++ r = natLE 4 l.length ++ (serMapEntries l ++ r) := by
    simp [serMap, List.append_assoc]
  rw [hsh]
  unfold dMap
  rw [dNat_append 4 l.length (serMapEntries l ++ r) (by omega)]
  simp only [Option.some_bind]
  rw [dEntries_append l r h]
  simp [mapFromList_sorted_id l hs]

/-- Wellformedness of an instruction value with respect to the wire format: every string length fits in a u32, every u64 value fits in 64 bits, the quantity fits in an i64, and `order_items` satisfies the `BTreeMap` representation invariant. -/
def wfInstr : PaymentProcessorInstruction → Prop
  | .RegisterMerchant seed fee data =>
      (∀ s, seed = some s → s.length < 2 ^ 32) ∧
      (∀ n, fee = some n → n < 2 ^ 64) ∧
      (∀ s, data = some s → s.length < 2 ^ 32)
  | .ExpressCheckout amount order_id secret data =>
      amount < 2 ^ 64 ∧ order_id.length < 2 ^ 32 ∧ secret.length < 2 ^ 32 ∧
      (∀ s, data = some s → s.length < 2 ^ 32)
  | .ChainCheckout amount order_items data =>
      amount < 2 ^ 64 ∧ order_items.length < 2 ^ 32 ∧ SortedKeys order_items ∧
      (∀ e ∈ order_items, e.1.length < 2 ^ 32 ∧ e.2 < 2 ^ 64) ∧
      (∀ s, data = some s → s.length < 2 ^ 32)
  | .Withdraw => True
  | .Subscribe name data =>
      name.length < 2 ^ 32 ∧ (∀ s, data = some s → s.length < 2 ^ 32)
  | .RenewSubscription quantity =>
      -(2 ^ 63) ≤ quantity ∧ quantity < 2 ^ 63
  | .CancelSubscription => True

theorem deserialize_tag0 (r : Bytes) : deserialize (0 :: r)
    = (dOptStr r).bind (fun p1 =>
      (dOptU64 p1.2).bind (fun p2 =>
        (dOptStr p2.2).bind (fun p3 =>
          if p3.2 = [] then some (.RegisterMerchant p1.1 p2.1 p3.1) else none))) := rfl

theorem deserialize_tag1 (r : Bytes) : deserialize (1 :: r)
    = (dNat 8 r).bind (fun p1 =>
      (dStr p1.2).bind (fun p2 =>
        (dStr p2.2).bind (fun p3 =>
          (dOptStr p3.2).bind (fun p4 =>
            if p4.2 = [] then some (.ExpressCheckout p1.1 p2.1 p3.1 p4.1) else none)))) := rfl

theorem deserialize_tag2 (r : Bytes) : deserialize (2 :: r)
    = (dNat 8 r).bind (fun p1 =>
      (dMap p1.2).bind (fun p2 =>
        (dOptStr p2.2).bind (fun p3 =>
          if p3.2 = [] then some (.ChainCheckout p1.1 p2.1 p3.1) else none))) := rfl

theorem deserialize_tag4 (r : Bytes) : deserialize (4 :: r)
    = (dStr r).bind (fun p1 =>
      (dOptStr p1.2).bind (fun p2 =>
        if p2.2 = [] then some (.Subscribe p1.1 p2.1) else none)) := rfl

theorem deserialize_tag5 (r : Bytes) : deserialize (5 :: r)
    = (dI64 r).bind (fun p1 =>
      if p1.2 = [] then some (.RenewSubscription p1.1) else none) := rfl

/-- C3: for every `PaymentProcessorInstruction` value whose fields are representable on the wire (string lengths fit in u32, u64 fields fit in 64 bits, the i64 quantity is in range, `order_items` is a well-formed ordered map) — including empty strings, absent optional fields, zero amounts and an empty `order_items` map — deserializing its serialization yields exactly the original value. -/
theorem C3_decode_encode_id (i : PaymentProcessorInstruction) (h : wfInstr i) :
    deserialize (serialize i) = some i := by
  cases i with
  | RegisterMerchant seed fee data =>
    rcases h with ⟨h1, h2, h3⟩
    show deserialize (0 :: (serOptStr seed ++ serOptU64 fee ++ serOptStr data)) = _
    have hr : serOptStr seed ++ serOptU64 fee ++ serOptStr data
        = serOptStr seed ++ (serOptU64 fee ++ (serOptStr data ++ [])) := by
      simp [List.append_assoc]
    rw [hr, deserialize_tag0]
    rw [dOptStr_append seed _ h1]
    simp only [Option.some_bind]
    rw [dOptU64_append fee _ h2]
    simp only [Option.some_bind]
    rw [dOptStr_append data [] h3]
    simp
  | ExpressCheckout amount order_id secret data =>
    rcases h with ⟨h1, h2, h3, h4⟩
    show deserialize
        (1 :: (natLE 8 amount ++ serStr order_id ++ serStr secret ++ serOptStr data)) = _
    have hr : natLE 8 amount ++ serStr order_id ++ serStr secret ++ serOptStr data
        = natLE 8 amount ++ (serStr order_id ++ (serStr secret ++ (serOptStr data ++ []))) := by
      simp [List.append_assoc]
    rw [hr, deserialize_tag1]
    rw [dNat_append 8 amount _ (by omega)]
    simp only [Option.some_bind]
    rw [dStr_append order_id _ h2]
    simp only [Option.some_bind]
    rw [dStr_append secret _ h3]
    simp only [Option.some_bind]
    rw [dOptStr_append data [] h4]
    simp
  | ChainCheckout amount order_items data =>
    rcases h with ⟨h1, h2, h3, h4, h5⟩
    show deserialize (2 :: (natLE 8 amount ++ serMap order_items ++ serOptStr data)) = _
    have hr : natLE 8 amount ++ serMap order_items ++ serOptStr data
        = natLE 8 amount ++ (serMap order_items ++ (serOptStr data ++ [])) := by
      simp [List.append_assoc]
    rw [hr, deserialize_tag2]
    rw [dNat_append 8 amount _ (by omega)]
    simp only [Option.some_bind]
    rw [dMap_append order_items _ h2 h3 h4]
    simp only [Option.some_bind]
    rw [dOptStr_append data [] h5]
    simp
  | Withdraw => rfl
  | Subscribe name data =>
    rcases h with ⟨h1, h2⟩
    show deserialize (4 :: (serStr name ++ serOptStr data)) = _
    have hr : serStr name ++ serOptStr data = serStr name ++ (serOptStr data ++ []) := by
      simp
    rw [hr, deserialize_tag4]
    rw [dStr_append name _ h1]
    simp only [Option.some_bind]
    rw [dOptStr_append data [] h2]
    simp
  | RenewSubscription quantity =>
    rcases h with ⟨h1, h2⟩
    show deserialize (5 :: serI64 quantity) = _
    have hr : serI64 quantity = serI64 quantity ++ [] := by simp
    rw [hr, deserialize_tag5]
    rw [dI64_append quantity [] h1 h2]
    simp
  | CancelSubscription => rfl

/-- C3 witness: concrete instructions covering empty strings, absent optional fields, a zero amount, an empty map, a populated map and a negative quantity all round-trip. -/
theorem C3_decode_encode_id_witness :
    deserialize (serialize (.ChainCheckout 0 [] none)) = some (.ChainCheckout 0 [] none) ∧
    deserialize (serialize (.RegisterMerchant (some []) none (some [123]))) =
      some (.RegisterMerchant (some []) none (some [123])) ∧
    deserialize (serialize (.ExpressCheckout 2000000000 [49, 51, 51, 55] [104] none)) =
      some (.ExpressCheckout 2000000000 [49, 51, 51, 55] [104] none) ∧
    deserialize (serialize (.ChainCheckout 6000000 [([49], 1), ([51], 1)] none)) =
      some (.ChainCheckout 6000000 [([49], 1), ([51], 1)] none) ∧
    deserialize (serialize (.RenewSubscription (-600))) = some (.RenewSubscription (-600)) := by
  refine ⟨C3_decode_encode_id _ ?_, C3_decode_encode_id _ ?_, C3_decode_encode_id _ ?_,
    C3_decode_encode_id _ ?_, C3_decode_encode_id _ ?_⟩
  · exact ⟨by decide, by decide, List.Pairwise.nil, by simp, fun s hs => nomatch hs⟩
  · refine ⟨?_, ?_, ?_⟩
    · intro s hs
      cases hs
      decide
    · intro n hn
      cases hn
    · intro s hs
      cases hs
      decide
  · exact ⟨by decide, by decide, by decide, fun s hs => nomatch hs⟩
  · refine ⟨by decide, by decide, ?_, ?_, fun s hs => nomatch hs⟩
    · exact List.Pairwise.cons (by decide) (List.Pairwise.cons (by simp) List.Pairwise.nil)
    · intro e he
      rcases List.mem_cons.mp he with he2 | he2
      · rw [he2]; exact ⟨by decide, by decide⟩
      · rcases List.mem_cons.mp he2 with he3 | he3
        · rw [he3]; exact ⟨by decide, by decide⟩
        · simp at he3
  · exact ⟨by decide, by decide⟩

/-- Opcode assigned to each operation by the table in spec section 6. -/
def specOpcode : PaymentProcessorInstruction → Nat
  | .RegisterMerchant .. => 0
  | .ExpressCheckout .. => 1
  | .ChainCheckout .. => 2
  | .Withdraw => 3
  | .Subscribe .. => 4
  | .RenewSubscription .. => 5
  | .CancelSubscription => 6

/-- Spec-side field encoder: a length-prefixed string, per spec section 6. -/
def strBytes (s : Bytes) : Bytes := natLE 4 s.length ++ s

/-- Spec-side field encoder: an unsigned 64-bit little-endian integer. -/
def u64Bytes (n : Nat) : Bytes := natLE 8 n

/-- Spec-side field encoder: a signed 64-bit little-endian integer, two's complement. -/
def i64Bytes (q : Int) : Bytes := natLE 8 (q % (2 ^ 64 : Int)).toNat

/-- Spec-side field encoder: an optional field, one tag byte then the payload when present. -/
def optBytes {α : Type} (enc : α → Bytes) : Option α → Bytes
  | none => [0]
  | some x => 1 :: enc x

/-- Spec-side field encoder: an ordered string-to-u64 map, entry count then entries. -/
def mapBytes (l : List KV) : Bytes :=
  natLE 4 l.length ++ (l.map (fun e => strBytes e.1 ++ u64Bytes e.2)).flatten

/-- Payload fields of each variant, written following the table in spec section 6: opcode 0 carries seed?, fee?, data?; opcode 1 carries amount, order_id, secret, data?; opcode 2 carries amount, order_items, data?; opcodes 3 and 6 carry nothing; opcode 4 carries name, data?; opcode 5 carries quantity. -/
def specPayload : PaymentProcessorInstruction → Bytes
  | .RegisterMerchant seed fee data =>
      optBytes strBytes seed ++ optBytes u64Bytes fee ++ optBytes strBytes data
  | .ExpressCheckout amount order_id secret data =>
      u64Bytes amount ++ strBytes order_id ++ strBytes secret ++ optBytes strBytes data
  | .ChainCheckout amount order_items data =>
      u64Bytes amount ++ mapBytes order_items ++ optBytes strBytes data
  | .Withdraw => []
  | .Subscribe name data => strBytes name ++ optBytes strBytes data
  | .RenewSubscription quantity => i64Bytes quantity
  | .CancelSubscription => []

theorem serOptStr_eq_optBytes (o : Option Bytes) : serOptStr o = optBytes strBytes o := by
  cases o <;> rfl

theorem serOptU64_eq_optBytes (o : Option Nat) : serOptU64 o = optBytes u64Bytes o := by
  cases o <;> rfl

/-- C2: the serialization of every instruction starts with the one-byte opcode of the table in spec section 6 and continues with exactly the payload fields the table lists for that variant, each encoded with the listed type. -/
theorem C2_opcode_and_payload (i : PaymentProcessorInstruction) :
    serialize i = specOpcode i :: specPayload i := by
  cases i <;>
    simp [serialize, specOpcode, specPayload, serOptStr_eq_optBytes, serOptU64_eq_optBytes,
      serStr, strBytes, u64Bytes, i64Bytes, serI64, serMap, serMapEntries, mapBytes]

/-- C4: every variable-length string field is serialized as a length prefix followed by its bytes (also inside options and inside the order_items map), and every numeric field occupies a fixed number of bytes in little-endian byte order (u64 and map values in 8 bytes, the i64 quantity in 8 bytes of its two's-complement residue, length prefixes in 4 bytes). -/
theorem C4_wire_layout :
    (∀ s : Bytes, serStr s = natLE 4 s.length ++ s)
    ∧ (∀ s : Bytes, serOptStr (some s) = 1 :: (natLE 4 s.length ++ s))
    ∧ (∀ l : List KV,
        serMapEntries l = (l.map (fun e => (natLE 4 e.1.length ++ e.1) ++ natLE 8 e.2)).flatten)
    ∧ (∀ w n : Nat, (natLE w n).length = w)
    ∧ (∀ w n : Nat, natLE w n = (List.range w).map (fun i => n / 256 ^ i % 256))
    ∧ (∀ q : Int, (serI64 q).length = 8
        ∧ serI64 q = (List.range 8).map (fun i => (q % (2 ^ 64 : Int)).toNat / 256 ^ i % 256))
    ∧ (∀ amount order_id secret data,
        serialize (.ExpressCheckout amount order_id secret data)
          = 1 :: (natLE 8 amount ++ (natLE 4 order_id.length ++ order_id)
            ++ (natLE 4 secret.length ++ secret) ++ serOptStr data)) := by
  refine ⟨fun s => rfl, fun s => rfl, ?_, natLE_length, natLE_eq_map_range, ?_, ?_⟩
  · intro l
    simp [serMapEntries, serStr]
  · intro q
    exact ⟨natLE_length 8 _, natLE_eq_map_range 8 _⟩
  · intro amount order_id secret data
    simp [serialize, serStr]

/-- C9: the ChainCheckout encoding is canonical in `order_items`: any two maps built by insertion from the same key-value pairs (in any order) serialize to identical bytes inside equal ChainCheckout instructions, and the serialized entries always appear in strictly ascending key order. -/
theorem C9_canonical_map_encoding (amount : Nat) (data : Option Bytes) (l1 l2 : List KV)
    (hperm : l1.Perm l2) (hnd : (l1.map Prod.fst).Nodup) :
    serialize (.ChainCheckout amount (mapFromList l1) data)
      = serialize (.ChainCheckout amount (mapFromList l2) data)
    ∧ ((mapFromList l1).map Prod.fst).Chain' (fun a b => a < b) := by
  constructor
  · rw [mapFromList_perm_eq l1 l2 hperm hnd]
  · exact (List.pairwise_map.mpr (mapFromList_sorted l1)).chain'

/-- C9 witness: inserting the pairs ("3" ↦ 1, "1" ↦ 2) in either order yields byte-identical ChainCheckout serializations with ascending keys. -/
theorem C9_canonical_map_encoding_witness :
    serialize (.ChainCheckout 5 (mapFromList [([51], 1), ([49], 2)]) none)
      = serialize (.ChainCheckout 5 (mapFromList [([49], 2), ([51], 1)]) none)
    ∧ ((mapFromList [([51], 1), ([49], 2)]).map Prod.fst).Chain' (fun a b => a < b) :=
  C9_canonical_map_encoding 5 none [([51], 1), ([49], 2)] [([49], 2), ([51], 1)]
    (by decide) (by decide)

theorem chain_total_eq (catalog : List KV) (items : List KV) :
    ∀ acc : Nat, (∀ e ∈ items, (mapLookup e.1 catalog).isSome) →
    acc + specTotal catalog items < 2 ^ 64 →
    chain_total catalog items acc = .ok (acc + specTotal catalog items) := by
  induction items with
  | nil =>
    intro acc _ _
    simp [chain_total, specTotal]
  | cons e rest ih =>
    intro acc hf hb
    obtain ⟨price, hp⟩ := Option.isSome_iff_exists.mp (hf e (by simp))
    have hst : specTotal catalog (e :: rest) = price * e.2 + specTotal catalog rest := by
      simp [specTotal, hp]
    unfold chain_total
    rw [hp]
    show (checked_mul price e.2).bind _ = _
    rw [show checked_mul price e.2 = .ok (price * e.2) from by
      unfold checked_mul
      rw [if_pos (by omega)]]
    show (checked_add acc (price * e.2)).bind _ = _
    rw [show checked_add acc (price * e.2) = .ok (acc + price * e.2) from by
      unfold checked_add
      rw [if_pos (by omega)]]
    show chain_total catalog rest (acc + price * e.2) = _
    rw [ih (acc + price * e.2) (fun b hb2 => hf b (List.mem_cons_of_mem e hb2)) (by omega)]
    have : acc + price * e.2 + specTotal catalog rest = acc + specTotal catalog (e :: rest) := by
      omega
    rw [this]

/-- C1 (amended): for every Chain Checkout whose order items all resolve in the merchant catalog and whose catalog total fits in u64, the check succeeds iff the supplied amount is at least the catalog total, and every amount strictly below the total is rejected with `InsufficientPayment`; amounts exceeding the total are accepted. -/
theorem C1_chain_checkout_amount (catalog items : List KV) (amount : Nat)
    (hfound : ∀ e ∈ items, (mapLookup e.1 catalog).isSome)
    (hbound : specTotal catalog items < 2 ^ 64) :
    (chain_checkout_check catalog amount items = .ok ()
      ↔ specTotal catalog items ≤ amount)
    ∧ (amount < specTotal catalog items →
      chain_checkout_check catalog amount items = .error .InsufficientPayment) := by
  have ht := chain_total_eq catalog items 0 hfound (by omega)
  have hcc : chain_checkout_check catalog amount items
      = if amount < specTotal catalog items then Except.error PPError.InsufficientPayment
        else Except.ok () := by
    unfold chain_checkout_check
    rw [ht]
    show (if amount < 0 + specTotal catalog items then Except.error PPError.InsufficientPayment
      else Except.ok ()) = _
    rw [Nat.zero_add]
  rw [hcc]
  constructor
  · constructor
    · intro h
      by_contra hc
      rw [if_pos (Nat.lt_of_not_le hc)] at h
      exact absurd h (by simp)
    · intro h
      rw [if_neg (Nat.not_lt.mpr h)]
  · intro h
    rw [if_pos h]

/-- Catalog of `test_chain_checkout`: item ids "1".."5" priced 2000000, 3000000, 4000000, 4000000, 4000000. -/
def testCatalog : List KV :=
  [([49], 2000000), ([50], 3000000), ([51], 4000000), ([52], 4000000), ([53], 4000000)]

/-- Order items of `test_chain_checkout`: one unit of item "1" and one unit of item "3". -/
def testOrderItems : List KV := [([49], 1), ([51], 1)]

/-- C1 counterexample: the exact scenario of the in-repo test `test_chain_checkout` — the supplied amount 2000000000 differs from the catalog total 6000000, yet the checkout is accepted (the test asserts success), refuting "rejected with InsufficientPayment for every amount not equal to that total". -/
theorem C1_counterexample :
    chain_checkout_check testCatalog 2000000000 testOrderItems = .ok ()
    ∧ specTotal testCatalog testOrderItems = 6000000
    ∧ (2000000000 : Nat) ≠ 6000000 :=
  ⟨rfl, rfl, by decide⟩

/-- C1 witness: with the test catalog, the exact total 6000000 is accepted and 5999999 is rejected with `InsufficientPayment`. -/
theorem C1_chain_checkout_amount_witness :
    chain_checkout_check testCatalog 6000000 testOrderItems = .ok ()
    ∧ chain_checkout_check testCatalog 5999999 testOrderItems
        = .error .InsufficientPayment := by
  have h1 := C1_chain_checkout_amount testCatalog testOrderItems 6000000 (by decide) (by decide)
  have h2 := C1_chain_checkout_amount testCatalog testOrderItems 5999999 (by decide) (by decide)
  exact ⟨h1.1.mpr (by decide), h2.2 (by decide)⟩

/-- C5: for every total fee and every sponsor share of at most the full proportion, the fee split returns an (owner_fee, sponsor_fee) pair summing exactly to the total, including totals the share does not divide evenly (the integer-division remainder goes to the owner). -/
theorem C5_fee_split_exact (total_fee sponsor_share_bp : Nat)
    (h : sponsor_share_bp ≤ 10000) :
    (get_amounts total_fee sponsor_share_bp).1 + (get_amounts total_fee sponsor_share_bp).2
      = total_fee := by
  unfold get_amounts
  have hle : total_fee * sponsor_share_bp / 10000 ≤ total_fee := by
    calc total_fee * sponsor_share_bp / 10000
        ≤ total_fee * 10000 / 10000 := Nat.div_le_div_right (Nat.mul_le_mul_left _ h)
      _ = total_fee := Nat.mul_div_cancel _ (by norm_num)
  omega

/-- C5 witness: a total of 100003 with a 3% share does not divide evenly, yet the split sums back to 100003. -/
theorem C5_fee_split_exact_witness :
    (get_amounts 100003 300).1 + (get_amounts 100003 300).2 = 100003
    ∧ (get_amounts 100003 300).2 = 3000
    ∧ ¬ 10000 ∣ 100003 * 300 :=
  ⟨C5_fee_split_exact 100003 300 (by decide), by decide, by decide⟩

/-- C6: order status only moves forward along Initialized → Paid → Withdrawn / Cancelled: no operation transitions a `Withdrawn` or `Cancelled` order, every transition strictly increases the status rank, and a second Withdraw fails with `InvalidOrderStatus` without producing a transfer. -/
theorem C6_order_status_monotonic :
    (∀ op, order_step op .Withdrawn = none)
    ∧ (∀ op, order_step op .Cancelled = none)
    ∧ (∀ op s s2, order_step op s = some s2 → statusRank s < statusRank s2)
    ∧ (∀ bal, withdraw_order .Withdrawn bal = .error .InvalidOrderStatus)
    ∧ (∀ s bal s2 bal2, withdraw_order s bal = .ok (s2, bal2) →
        withdraw_order s2 bal2 = .error .InvalidOrderStatus) := by
  refine ⟨?_, ?_, ?_, ?_, ?_⟩
  · intro op
    cases op <;> rfl
  · intro op
    cases op <;> rfl
  · intro op s s2 h
    cases op <;> cases s <;> cases s2 <;> revert h <;> decide
  · intro bal
    rfl
  · intro s bal s2 bal2 h
    cases s <;> simp_all [withdraw_order]
    obtain ⟨h1, h2⟩ := h
    subst h1
    rfl

/-- C6 witness: withdrawing a Paid order with escrow balance 5 yields the Withdrawn state, from which a second withdraw fails with `InvalidOrderStatus`; the terminal states admit no transition. -/
theorem C6_order_status_monotonic_witness :
    order_step .withdrawOp .Withdrawn = none
    ∧ order_step .cancelTrial .Cancelled = none
    ∧ withdraw_order .Withdrawn 5 = .error .InvalidOrderStatus
    ∧ statusRank .Paid < statusRank .Withdrawn :=
  ⟨C6_order_status_monotonic.1 .withdrawOp,
   C6_order_status_monotonic.2.1 .cancelTrial,
   C6_order_status_monotonic.2.2.2.2 .Paid 5 .Withdrawn 5 rfl,
   C6_order_status_monotonic.2.2.1 .withdrawOp .Paid .Withdrawn rfl⟩

/-- C7: for every registration, the stored fee is max(requested_fee, MIN_FEE), where the requested fee defaults to DEFAULT_FEE when absent; in particular the stored fee never drops below MIN_FEE. -/
theorem C7_registered_fee (min_fee default_fee : Nat) (requested : Option Nat) :
    registered_fee min_fee default_fee requested = max (requested.getD default_fee) min_fee
    ∧ min_fee ≤ registered_fee min_fee default_fee requested
    ∧ registered_fee min_fee default_fee none = max default_fee min_fee :=
  ⟨rfl, le_max_right _ _, rfl⟩

/-- C8: CancelSubscription before period_start + trial refunds the full paid amount and cancels both the subscription and the order (rewinding period_end to period_start); at or after that instant the order keeps its status (in particular stays Paid), the refund account receives nothing, and period_end is unchanged. -/
theorem C8_cancel_subscription_trial (now period_start period_end trial : Int)
    (paid_amount : Nat) :
    (now < period_start + trial →
      cancel_subscription_outcome now period_start period_end trial paid_amount .Paid
        = { sub_status := .Cancelled, order_status := .Cancelled,
            refund_amount := paid_amount, period_end := period_start })
    ∧ (period_start + trial ≤ now →
      (cancel_subscription_outcome now period_start period_end trial paid_amount
          .Paid).order_status = .Paid
      ∧ (cancel_subscription_outcome now period_start period_end trial paid_amount
          .Paid).refund_amount = 0
      ∧ (cancel_subscription_outcome now period_start period_end trial paid_amount
          .Paid).period_end = period_end) := by
  constructor
  · intro h
    unfold cancel_subscription_outcome
    rw [if_pos h]
  · intro h
    unfold cancel_subscription_outcome
    rw [if_neg (not_lt.mpr h)]
    exact ⟨rfl, rfl, rfl⟩

/-- C8 witness: cancelling at time 0 inside a trial of 100 starting at period_start 0 refunds the 99 paid and cancels the order; cancelling at time 200, after the trial, leaves the order Paid with no refund. -/
theorem C8_cancel_subscription_trial_witness :
    cancel_subscription_outcome 0 0 720 100 99 .Paid
      = { sub_status := .Cancelled, order_status := .Cancelled,
          refund_amount := 99, period_end := 0 }
    ∧ (cancel_subscription_outcome 200 0 720 100 99 .Paid).order_status = .Paid
    ∧ (cancel_subscription_outcome 200 0 720 100 99 .Paid).refund_amount = 0
    ∧ (cancel_subscription_outcome 200 0 720 100 99 .Paid).period_end = 720 :=
  ⟨(C8_cancel_subscription_trial 0 0 720 100 99).1 (by norm_num),
   ((C8_cancel_subscription_trial 200 0 720 100 99).2 (by norm_num)).1,
   ((C8_cancel_subscription_trial 200 0 720 100 99).2 (by norm_num)).2.1,
   ((C8_cancel_subscription_trial 200 0 720 100 99).2 (by norm_num)).2.2⟩

/-- C10: in the account lists of the seven builders, only index 0 (the payer) is a signer, except express_checkout and chain_checkout where the order account at index 1 also signs; register_merchant and withdraw append their optional account (sponsor, subscription) as the last entry, read-only and non-signer, exactly when it is supplied, giving lengths 4/5 and 7/8; the other builders have fixed lengths 12, 12, 6, 4, 8. -/
theorem C10_account_lists :
    (∀ pid s m seed fee data,
      ((register_merchant pid s m seed fee data none).accounts.map AccountMeta.is_signer)
        = [true, false, false, false]
      ∧ (register_merchant pid s m seed fee data none).accounts.length = 4)
    ∧ (∀ pid s m seed fee data sp,
      (register_merchant pid s m seed fee data (some sp)).accounts
        = (register_merchant pid s m seed fee data none).accounts
          ++ [AccountMeta.new_readonly sp false]
      ∧ (register_merchant pid s m seed fee data (some sp)).accounts.length = 5
      ∧ AccountMeta.new_readonly sp false = ⟨sp, false, false⟩)
    ∧ (∀ pid s o m st bt mint po sp pda amount oid sec data,
      ((express_checkout pid s o m st bt mint po sp pda amount oid sec data).accounts.map
          AccountMeta.is_signer)
        = [true, true, false, false, false, false, false, false, false, false, false, false])
    ∧ (∀ pid s o m st bt mint po sp pda amount items data,
      ((chain_checkout pid s o m st bt mint po sp pda amount items data).accounts.map
          AccountMeta.is_signer)
        = [true, true, false, false, false, false, false, false, false, false, false, false])
    ∧ (∀ pid s o m opt mt pda,
      ((withdraw pid s o m opt mt pda none).accounts.map AccountMeta.is_signer)
        = [true, false, false, false, false, false, false]
      ∧ (withdraw pid s o m opt mt pda none).accounts.length = 7)
    ∧ (∀ pid s o m opt mt pda sub,
      (withdraw pid s o m opt mt pda (some sub)).accounts
        = (withdraw pid s o m opt mt pda none).accounts
          ++ [AccountMeta.new_readonly sub false]
      ∧ (withdraw pid s o m opt mt pda (some sub)).accounts.length = 8
      ∧ AccountMeta.new_readonly sub false = ⟨sub, false, false⟩)
    ∧ (∀ pid s sub m o name data,
      ((subscribe pid s sub m o name data).accounts.map AccountMeta.is_signer)
        = [true, false, false, false, false, false])
    ∧ (∀ pid s sub m o q,
      ((renew_subscription pid s sub m o q).accounts.map AccountMeta.is_signer)
        = [true, false, false, false])
    ∧ (∀ pid s sub m o ot rt pda,
      ((cancel_subscription pid s sub m o ot rt pda).accounts.map AccountMeta.is_signer)
        = [true, false, false, false, false, false, false, false]) := by
  refine ⟨?_, ?_, ?_, ?_, ?_, ?_, ?_, ?_, ?_⟩ <;> intros <;>
    first
    | rfl
    | exact ⟨rfl, rfl⟩
    | exact ⟨rfl, rfl, rfl⟩
